import Mathlib

/-!
Shallow embedding of the conditional-token (CTF) command layer of the
polymarket CLI (`src/commands/ctf.rs`), together with proofs of the spec's
claims about it.

Modelling conventions:
* Rust `f64` decimal amounts are modelled as exact rational numbers (`ℚ`);
  the IEEE-754 rounding of the multiplication `amount * 1_000_000` is
  abstracted to exact rational arithmetic, and the `as u64` cast is modelled
  faithfully as a saturating truncation toward zero (`castF64ToU64`).
  Non-finite values (NaN, infinities) are outside this rational model.
* Rust strings are modelled as `List Char`; `str::split(',')` and
  `str::trim` are embedded directly (`splitComma`, `trim`).
* `anyhow::Result<T>` is modelled as `Except String T`; the `?`-propagation
  of the source becomes the `Except` monad, `.context(label)` becomes
  `addContext label`, and `collect::<Result<Vec<_>>>` becomes
  `traverseExcept` (short-circuiting at the first error, no partial list).
* `U256` / `B256` / `Address` values are modelled as `ℕ` (all values
  produced here fit; the all-zero 32-byte identifier is `0`).
* External collaborators (provider construction, the SDK client, the chain
  calls) are abstracted as an `Ext` record of `Except`-valued results, as
  the spec directs.
-/

deriving instance DecidableEq for Except

namespace PolymarketCtf

/-- `const USDC_DECIMALS: u64 = 1_000_000` from `ctf.rs`. -/
def USDC_DECIMALS : ℕ := 1000000

/-- `u64::MAX`, the saturation bound of Rust's `f64 as u64` cast. -/
def u64Max : ℕ := 2 ^ 64 - 1

/-- Rust's `as u64` cast applied to a (finite) floating-point value,
modelled on exact rationals: truncation toward zero, negative values
clamp to `0`, values at or above `2^64` saturate to `u64::MAX`. -/
def castF64ToU64 (x : ℚ) : ℕ := min (Int.toNat ⌊x⌋) u64Max

/-- Round a rational to the nearest integer, ties to even — the rounding
IEEE 754 applies to the scaled significand. -/
def roundHalfEven (x : ℚ) : ℤ :=
  if x - ⌊x⌋ < 1 / 2 then ⌊x⌋
  else if 1 / 2 < x - ⌊x⌋ then ⌊x⌋ + 1
  else if ⌊x⌋ % 2 = 0 then ⌊x⌋ else ⌊x⌋ + 1

/-- Floor of the base-2 logarithm of a positive rational, computed from
the bit lengths of numerator and denominator with a one-step correction. -/
def ratLog2Floor (q : ℚ) : ℤ :=
  if (2 : ℚ) ^ ((Nat.log2 q.num.toNat : ℤ) - (Nat.log2 q.den : ℤ)) ≤ q then
    (Nat.log2 q.num.toNat : ℤ) - (Nat.log2 q.den : ℤ)
  else (Nat.log2 q.num.toNat : ℤ) - (Nat.log2 q.den : ℤ) - 1

/-- IEEE-754 binary64 rounding of a positive rational: round to nearest,
ties to even, 53-bit significand, with the subnormal ulp floor at
`2^(-1074)`.  Values beyond the binary64 exponent range are kept as exact
huge rationals rather than infinity: the one consumer, `castF64ToU64`,
saturates them to `u64::MAX` exactly as Rust's cast of an IEEE infinity
does, so the composition agrees with the code there. -/
def fl64Pos (q : ℚ) : ℚ :=
  (roundHalfEven (q * (2 : ℚ) ^ (-(max (ratLog2Floor q - 52) (-1074)))) : ℚ) *
    (2 : ℚ) ^ (max (ratLog2Floor q - 52) (-1074))

/-- IEEE-754 binary64 round-to-nearest-even of a rational value
(see `fl64Pos`); models the rounding of the `f64` product in the source's
`amount * USDC_DECIMALS as f64`. -/
def fl64 (q : ℚ) : ℚ :=
  if q < 0 then -fl64Pos (-q) else if q = 0 then 0 else fl64Pos q

/-- Embedding of `parse_usdc_amount` (`ctf.rs` lines 120-124):
`ensure!(amount > 0.0)`, then `(amount * USDC_DECIMALS as f64) as u64` —
the `f64` multiplication rounds its exact product to the nearest double
(`fl64`), and the cast truncates toward zero, saturating. -/
def parse_usdc_amount (amount : ℚ) : Except String ℕ :=
  if amount > 0 then
    Except.ok (castF64ToU64 (fl64 (amount * (USDC_DECIMALS : ℚ))))
  else
    Except.error "Amount must be positive"

/-- Embedding of Rust `str::split(',')`: the list of (possibly empty)
chunks between commas.  Never returns the empty list. -/
def splitComma : List Char → List (List Char)
  | [] => [[]]
  | c :: rest =>
    if c = ',' then [] :: splitComma rest
    else
      match splitComma rest with
      | [] => [[c]]
      | t :: ts => (c :: t) :: ts

/-- Embedding of Rust `str::trim`: strip whitespace from both ends. -/
def trim (cs : List Char) : List Char :=
  ((cs.dropWhile Char.isWhitespace).reverse.dropWhile Char.isWhitespace).reverse

/-- Value of a decimal digit character, if it is one. -/
def digitVal (c : Char) : Option ℕ :=
  if c = '0' then some 0
  else if c = '1' then some 1
  else if c = '2' then some 2
  else if c = '3' then some 3
  else if c = '4' then some 4
  else if c = '5' then some 5
  else if c = '6' then some 6
  else if c = '7' then some 7
  else if c = '8' then some 8
  else if c = '9' then some 9
  else none

/-- Accumulating parse of a run of decimal digits; fails at the first
non-digit character. -/
def parseDigitsAux : List Char → ℕ → Option ℕ
  | [], acc => some acc
  | c :: rest, acc =>
    match digitVal c with
    | some d => parseDigitsAux rest (acc * 10 + d)
    | none => none

/-- Parse a nonempty all-digit string to its value. -/
def parseDigits : List Char → Option ℕ
  | [] => none
  | c :: rest => parseDigitsAux (c :: rest) 0

/-- Embedding of Rust `u64::from_str`: an optional leading `+`, then a
nonempty run of decimal digits; the value must fit in 64 bits. -/
def parseU64 (cs : List Char) : Option ℕ :=
  let body := match cs with
    | '+' :: rest => rest
    | _ => cs
  match parseDigits body with
  | some n => if n ≤ u64Max then some n else none
  | none => none

/-- Split a leading run of decimal digits off a character list. -/
def takeDigits : List Char → List ℕ × List Char
  | [] => ([], [])
  | c :: rest =>
    match digitVal c with
    | some d =>
      let p := takeDigits rest
      (d :: p.1, p.2)
    | none => ([], c :: rest)

/-- Value of a digit list read most-significant first. -/
def digitsToNat (ds : List ℕ) : ℕ := ds.foldl (fun a d => a * 10 + d) 0

/-- Embedding of Rust `f64::from_str` restricted to finite decimal
literals, returning the exact decimal value as a rational: an optional
sign, an integer part and/or a fractional part (at least one digit in
total), and an optional decimal exponent.  The non-finite spellings
(`inf`, `nan`) are outside the rational model. -/
def parseDecimal (cs : List Char) : Option ℚ :=
  let sgn : ℚ × List Char :=
    match cs with
    | '-' :: r => (-1, r)
    | '+' :: r => (1, r)
    | _ => (1, cs)
  let intPart := takeDigits sgn.2
  let fracPart :=
    match intPart.2 with
    | '.' :: r => takeDigits r
    | _ => ([], intPart.2)
  if intPart.1.isEmpty ∧ fracPart.1.isEmpty then none
  else
    let mantissa : ℚ :=
      (digitsToNat intPart.1 : ℚ) +
        (digitsToNat fracPart.1 : ℚ) / ((10 : ℚ) ^ fracPart.1.length)
    match fracPart.2 with
    | [] => some (sgn.1 * mantissa)
    | 'e' :: r =>
      let es : Bool × List Char :=
        match r with
        | '-' :: rr => (true, rr)
        | '+' :: rr => (false, rr)
        | _ => (false, r)
      let eds := takeDigits es.2
      if eds.1.isEmpty ∨ ¬ eds.2.isEmpty then none
      else
        some (sgn.1 * mantissa *
          (if es.1 = true then 1 / (10 : ℚ) ^ digitsToNat eds.1
           else (10 : ℚ) ^ digitsToNat eds.1))
    | 'E' :: r =>
      let es : Bool × List Char :=
        match r with
        | '-' :: rr => (true, rr)
        | '+' :: rr => (false, rr)
        | _ => (false, r)
      let eds := takeDigits es.2
      if eds.1.isEmpty ∨ ¬ eds.2.isEmpty then none
      else
        some (sgn.1 * mantissa *
          (if es.1 = true then 1 / (10 : ℚ) ^ digitsToNat eds.1
           else (10 : ℚ) ^ digitsToNat eds.1))
    | _ => none

/-- Embedding of `collect::<Result<Vec<_>>>` over a mapped iterator:
stops at the first error, returns the whole list otherwise. -/
def traverseExcept (f : α → Except String β) : List α → Except String (List β)
  | [] => Except.ok []
  | x :: xs =>
    match f x with
    | Except.error e => Except.error e
    | Except.ok b =>
      match traverseExcept f xs with
      | Except.error e => Except.error e
      | Except.ok bs => Except.ok (b :: bs)

/-- Per-element body of `parse_usdc_amounts` (`ctf.rs` lines 128-136):
trim, parse as `f64` with context `Invalid amount: {trimmed}`, ensure
non-negative, convert by the fixed-point rule. -/
def parse_usdc_amounts_elem (part : List Char) : Except String ℕ :=
  let trimmed := trim part
  match parseDecimal trimmed with
  | none => Except.error ("Invalid amount: " ++ trimmed.asString)
  | some v =>
    if v ≥ 0 then Except.ok (castF64ToU64 (fl64 (v * (USDC_DECIMALS : ℚ))))
    else Except.error ("Amount must be non-negative: " ++ trimmed.asString)

/-- Embedding of `parse_usdc_amounts` (`ctf.rs` lines 126-138). -/
def parse_usdc_amounts (s : List Char) : Except String (List ℕ) :=
  traverseExcept parse_usdc_amounts_elem (splitComma s)

/-- Per-element body of `parse_u256_csv` (`ctf.rs` lines 142-148):
trim, parse as `u64` with context `Invalid value: {trimmed}`. -/
def parse_u256_csv_elem (part : List Char) : Except String ℕ :=
  let trimmed := trim part
  match parseU64 trimmed with
  | none => Except.error ("Invalid value: " ++ trimmed.asString)
  | some v => Except.ok v

/-- Embedding of `parse_u256_csv` (`ctf.rs` lines 140-150). -/
def parse_u256_csv (s : List Char) : Except String (List ℕ) :=
  traverseExcept parse_u256_csv_elem (splitComma s)

/-- Value of a hexadecimal digit character, if it is one. -/
def hexVal (c : Char) : Option ℕ :=
  match digitVal c with
  | some d => some d
  | none =>
    if c = 'a' ∨ c = 'A' then some 10
    else if c = 'b' ∨ c = 'B' then some 11
    else if c = 'c' ∨ c = 'C' then some 12
    else if c = 'd' ∨ c = 'D' then some 13
    else if c = 'e' ∨ c = 'E' then some 14
    else if c = 'f' ∨ c = 'F' then some 15
    else none

/-- Accumulating parse of a run of hex digits; fails at the first
non-hex character. -/
def hexDigitsAux : List Char → ℕ → Option ℕ
  | [], acc => some acc
  | c :: rest, acc =>
    match hexVal c with
    | some d => hexDigitsAux rest (acc * 16 + d)
    | none => none

/-- Modelled from the spec: `parse_condition_id` is defined in the
`commands` module outside the provided sources (only its callers appear in
`ctf.rs`).  Spec section 4.1: the hex-identifier parser accepts a
`0x`-prefixed hex string of the exact expected byte length (32 bytes, so
64 hex digits); any other length, missing prefix, or non-hex character
fails with an error naming the offending input. -/
def parse_condition_id (s : List Char) : Except String ℕ :=
  match s with
  | '0' :: 'x' :: rest =>
    if rest.length = 64 then
      match hexDigitsAux rest 0 with
      | some n => Except.ok n
      | none => Except.error ("invalid hex identifier: " ++ s.asString)
    else Except.error ("invalid hex identifier: " ++ s.asString)
  | _ => Except.error ("invalid hex identifier: " ++ s.asString)

/-- Modelled from the spec: `parse_address` is defined in the `commands`
module outside the provided sources.  Spec section 4.1: same hex
discipline as the identifier parser at 20-byte length (40 hex digits). -/
def parse_address (s : List Char) : Except String ℕ :=
  match s with
  | '0' :: 'x' :: rest =>
    if rest.length = 40 then
      match hexDigitsAux rest 0 with
      | some n => Except.ok n
      | none => Except.error ("invalid address: " ++ s.asString)
    else Except.error ("invalid address: " ++ s.asString)
  | _ => Except.error ("invalid address: " ++ s.asString)

/-- The spec's shape condition for a ConditionId-shaped value: a `0x`
prefix followed by exactly 64 hex digits. -/
def validHex32 (s : List Char) : Bool :=
  match s with
  | '0' :: 'x' :: rest => rest.length = 64 && rest.all fun c => (hexVal c).isSome
  | _ => false

/-- Embedding of `parse_optional_parent` (`ctf.rs` lines 152-157):
`None` resolves to `B256::default()` (the all-zero 32-byte identifier,
modelled as `0`), `Some p` delegates to `parse_condition_id`. -/
def parse_optional_parent : Option (List Char) → Except String ℕ
  | some p => parse_condition_id p
  | none => Except.ok 0

/-- Embedding of `resolve_collateral` (`ctf.rs` lines 159-161). -/
def resolve_collateral (collateral : List Char) : Except String ℕ :=
  parse_address collateral

/-- Embedding of `default_partition` (`ctf.rs` lines 163-165). -/
def default_partition : List ℕ := [1, 2]

/-- Embedding of `default_index_sets` (`ctf.rs` lines 167-169). -/
def default_index_sets : List ℕ := [1, 2]

/-- Embedding of the partition fallback in `execute` (`ctf.rs` lines
188-191 and 227-230): a supplied CSV string goes to `parse_u256_csv`
verbatim, an omitted one yields `default_partition`. -/
def build_partition : Option (List Char) → Except String (List ℕ)
  | some p => parse_u256_csv p
  | none => Except.ok default_partition

/-- Embedding of the index-set fallback in `execute` (`ctf.rs` lines
264-267): a supplied CSV string goes to `parse_u256_csv` verbatim, an
omitted one yields `default_index_sets`. -/
def build_index_sets : Option (List Char) → Except String (List ℕ)
  | some s => parse_u256_csv s
  | none => Except.ok default_index_sets

/-- Success payload of the transaction executor (`resp.transaction_hash`,
`resp.block_number`). -/
structure TxResp where
  transaction_hash : ℕ
  block_number : ℕ
deriving DecidableEq

/-- Embedding of `SplitPositionRequest` (fields as set in `ctf.rs`
lines 196-202). -/
structure SplitPositionRequest where
  collateral_token : ℕ
  parent_collection_id : ℕ
  condition_id : ℕ
  partition : List ℕ
  amount : ℕ
deriving DecidableEq

/-- Embedding of `MergePositionsRequest` (`ctf.rs` lines 235-241). -/
structure MergePositionsRequest where
  collateral_token : ℕ
  parent_collection_id : ℕ
  condition_id : ℕ
  partition : List ℕ
  amount : ℕ
deriving DecidableEq

/-- Embedding of `RedeemPositionsRequest` (`ctf.rs` lines 272-277). -/
structure RedeemPositionsRequest where
  collateral_token : ℕ
  parent_collection_id : ℕ
  condition_id : ℕ
  index_sets : List ℕ
deriving DecidableEq

/-- Embedding of `RedeemNegRiskRequest` (`ctf.rs` lines 301-304). -/
structure RedeemNegRiskRequest where
  condition_id : ℕ
  amounts : List ℕ
deriving DecidableEq

/-- Embedding of `ConditionIdRequest` (`ctf.rs` lines 329-333). -/
structure ConditionIdRequest where
  oracle : ℕ
  question_id : ℕ
  outcome_slot_count : ℕ
deriving DecidableEq

/-- Embedding of `CollectionIdRequest` (`ctf.rs` lines 349-353). -/
structure CollectionIdRequest where
  parent_collection_id : ℕ
  condition_id : ℕ
  index_set : ℕ
deriving DecidableEq

/-- Embedding of `PositionIdRequest` (`ctf.rs` lines 368-371). -/
structure PositionIdRequest where
  collateral_token : ℕ
  collection_id : ℕ
deriving DecidableEq

/-- Embedding of the `CtfCommand` enum (`ctf.rs` lines 23-118); string
flags are `List Char`, `f64` amounts are exact rationals, `u64` flags
are `ℕ`. -/
inductive CtfCommand
  | Split (condition : List Char) (amount : ℚ) (collateral : List Char)
      (partition : Option (List Char)) (parent_collection : Option (List Char))
  | Merge (condition : List Char) (amount : ℚ) (collateral : List Char)
      (partition : Option (List Char)) (parent_collection : Option (List Char))
  | Redeem (condition : List Char) (collateral : List Char)
      (index_sets : Option (List Char)) (parent_collection : Option (List Char))
  | RedeemNegRisk (condition : List Char) (amounts : List Char)
  | ConditionId (oracle : List Char) (question : List Char) (outcomes : ℕ)
  | CollectionId (condition : List Char) (index_set : ℕ)
      (parent_collection : Option (List Char))
  | PositionId (collateral : List Char) (collection : List Char)

/-- The two SDK client configurations: `ctf::Client::new` (standard) and
`ctf::Client::with_neg_risk` (neg-risk mode). -/
inductive ClientMode
  | standard
  | negRisk
deriving DecidableEq

/-- The two provider capabilities: `auth::create_provider` (authenticated
signer) and `auth::create_readonly_provider`. -/
inductive ProviderKind
  | authenticated
  | readonly
deriving DecidableEq

/-- Which SDK client configuration each sub-command constructs, read off
the dispatch arms of `execute`: `Client::with_neg_risk` on line 299 for
`RedeemNegRisk`, `Client::new` on lines 194, 233, 270, 327, 347 and 365
for every other sub-command. -/
def clientMode : CtfCommand → ClientMode
  | CtfCommand.RedeemNegRisk _ _ => ClientMode.negRisk
  | _ => ClientMode.standard

/-- Which provider capability each sub-command requests, read off the
dispatch arms of `execute`: `create_provider` on lines 193, 232, 269 and
298 for the four mutating sub-commands, `create_readonly_provider` on
lines 326, 346 and 365 for the three id-derivation sub-commands. -/
def providerKind : CtfCommand → ProviderKind
  | CtfCommand.Split _ _ _ _ _ => ProviderKind.authenticated
  | CtfCommand.Merge _ _ _ _ _ => ProviderKind.authenticated
  | CtfCommand.Redeem _ _ _ _ => ProviderKind.authenticated
  | CtfCommand.RedeemNegRisk _ _ => ProviderKind.authenticated
  | CtfCommand.ConditionId _ _ _ => ProviderKind.readonly
  | CtfCommand.CollectionId _ _ _ => ProviderKind.readonly
  | CtfCommand.PositionId _ _ => ProviderKind.readonly

/-- External collaborators of the dispatcher, abstracted as the results
they would return: provider construction, client construction in each of
the two configurations, the four transaction-executor calls and the three
id-derivation queries. -/
structure Ext where
  create_provider : Except String Unit
  create_readonly_provider : Except String Unit
  client_new : Except String Unit
  client_with_neg_risk : Except String Unit
  split_position : SplitPositionRequest → Except String TxResp
  merge_positions : MergePositionsRequest → Except String TxResp
  redeem_positions : RedeemPositionsRequest → Except String TxResp
  redeem_neg_risk : RedeemNegRiskRequest → Except String TxResp
  condition_id : ConditionIdRequest → Except String ℕ
  collection_id : CollectionIdRequest → Except String ℕ
  position_id : PositionIdRequest → Except String ℕ

/-- What `execute` hands to the output renderer: an operation label with
transaction hash and block number for mutating commands, a derived
identifier for the id-derivation commands. -/
inductive CtfOutput
  | txResult (op : String) (transaction_hash : ℕ) (block_number : ℕ)
  | conditionIdOut (value : ℕ)
  | collectionIdOut (value : ℕ)
  | positionIdOut (value : ℕ)
deriving DecidableEq

/-- Embedding of `anyhow`'s `.context(label)`: a failure is wrapped with
the label (the cause stays in the chain), a success passes through. -/
def addContext (label : String) : Except String α → Except String α
  | Except.error msg => Except.error (label ++ ": " ++ msg)
  | Except.ok a => Except.ok a

/-- Embedding of `execute` (`ctf.rs` lines 171-377): per sub-command,
parse and validate the flags in source order, construct the provider and
client, assemble the request, invoke the external call — with a
`.context` label on the four mutating calls and none on the three
id-derivation calls — and relay the result. -/
def execute (cmd : CtfCommand) (ext : Ext) : Except String CtfOutput :=
  match cmd with
  | CtfCommand.Split condition amount collateral partition parent_collection => do
    let condition_id ← parse_condition_id condition
    let usdc_amount ← parse_usdc_amount amount
    let collateral_addr ← resolve_collateral collateral
    let parent ← parse_optional_parent parent_collection
    let part ← build_partition partition
    let _ ← ext.create_provider
    let _ ← ext.client_new
    let req : SplitPositionRequest :=
      ⟨collateral_addr, parent, condition_id, part, usdc_amount⟩
    let resp ← addContext "Split position failed" (ext.split_position req)
    Except.ok (CtfOutput.txResult "split" resp.transaction_hash resp.block_number)
  | CtfCommand.Merge condition amount collateral partition parent_collection => do
    let condition_id ← parse_condition_id condition
    let usdc_amount ← parse_usdc_amount amount
    let collateral_addr ← resolve_collateral collateral
    let parent ← parse_optional_parent parent_collection
    let part ← build_partition partition
    let _ ← ext.create_provider
    let _ ← ext.client_new
    let req : MergePositionsRequest :=
      ⟨collateral_addr, parent, condition_id, part, usdc_amount⟩
    let resp ← addContext "Merge positions failed" (ext.merge_positions req)
    Except.ok (CtfOutput.txResult "merge" resp.transaction_hash resp.block_number)
  | CtfCommand.Redeem condition collateral index_sets parent_collection => do
    let condition_id ← parse_condition_id condition
    let collateral_addr ← resolve_collateral collateral
    let parent ← parse_optional_parent parent_collection
    let sets ← build_index_sets index_sets
    let _ ← ext.create_provider
    let _ ← ext.client_new
    let req : RedeemPositionsRequest := ⟨collateral_addr, parent, condition_id, sets⟩
    let resp ← addContext "Redeem positions failed" (ext.redeem_positions req)
    Except.ok (CtfOutput.txResult "redeem" resp.transaction_hash resp.block_number)
  | CtfCommand.RedeemNegRisk condition amounts => do
    let condition_id ← parse_condition_id condition
    let amts ← parse_usdc_amounts amounts
    let _ ← ext.create_provider
    let _ ← ext.client_with_neg_risk
    let req : RedeemNegRiskRequest := ⟨condition_id, amts⟩
    let resp ← addContext "Redeem neg-risk positions failed" (ext.redeem_neg_risk req)
    Except.ok
      (CtfOutput.txResult "redeem-neg-risk" resp.transaction_hash resp.block_number)
  | CtfCommand.ConditionId oracle question outcomes => do
    let oracle_addr ← parse_address oracle
    let question_id ← parse_condition_id question
    let _ ← ext.create_readonly_provider
    let _ ← ext.client_new
    let req : ConditionIdRequest := ⟨oracle_addr, question_id, outcomes⟩
    let value ← ext.condition_id req
    Except.ok (CtfOutput.conditionIdOut value)
  | CtfCommand.CollectionId condition index_set parent_collection => do
    let condition_id ← parse_condition_id condition
    let parent ← parse_optional_parent parent_collection
    let _ ← ext.create_readonly_provider
    let _ ← ext.client_new
    let req : CollectionIdRequest := ⟨parent, condition_id, index_set⟩
    let value ← ext.collection_id req
    Except.ok (CtfOutput.collectionIdOut value)
  | CtfCommand.PositionId collateral collection => do
    let collateral_addr ← parse_address collateral
    let collection_id ← parse_condition_id collection
    let _ ← ext.create_readonly_provider
    let _ ← ext.client_new
    let req : PositionIdRequest := ⟨collateral_addr, collection_id⟩
    let value ← ext.position_id req
    Except.ok (CtfOutput.positionIdOut value)

/-- A concrete well-formed condition identifier argument. -/
def condHexArg : List Char :=
  "0x0000000000000000000000000000000000000000000000000000000000000001".data

/-- The default collateral address from the CLI flag definitions
(`ctf.rs` lines 34, 52, 67, 112). -/
def usdcAddrArg : List Char := "0x2791Bca1f2de4661ED88A30C99A7a9449Aa84174".data

/-- A concrete well-formed oracle address argument. -/
def oracleAddrArg : List Char := "0x0000000000000000000000000000000000000001".data

/-- An external world in which provider and client construction succeed
and every chain call fails with the one message `msg`. -/
def extFailWith (msg : String) : Ext :=
  ⟨Except.ok (), Except.ok (), Except.ok (), Except.ok (),
   fun _ => Except.error msg, fun _ => Except.error msg, fun _ => Except.error msg,
   fun _ => Except.error msg, fun _ => Except.error msg, fun _ => Except.error msg,
   fun _ => Except.error msg⟩

/-- An external world in which everything succeeds: transactions return
`t`, id derivations return `n`. -/
def extOkWith (t : TxResp) (n : ℕ) : Ext :=
  ⟨Except.ok (), Except.ok (), Except.ok (), Except.ok (),
   fun _ => Except.ok t, fun _ => Except.ok t, fun _ => Except.ok t,
   fun _ => Except.ok t, fun _ => Except.ok n, fun _ => Except.ok n,
   fun _ => Except.ok n⟩

/-- An external world that distinguishes which client constructor the
dispatcher invoked: `Client::new` fails with `standard client`,
`Client::with_neg_risk` fails with `neg-risk client`. -/
def extClientProbe : Ext :=
  ⟨Except.ok (), Except.ok (), Except.error "standard client",
   Except.error "neg-risk client",
   fun _ => Except.ok ⟨0, 0⟩, fun _ => Except.ok ⟨0, 0⟩, fun _ => Except.ok ⟨0, 0⟩,
   fun _ => Except.ok ⟨0, 0⟩, fun _ => Except.ok 0, fun _ => Except.ok 0,
   fun _ => Except.ok 0⟩

example : parse_u256_csv "1, 2, 4".data = Except.ok [1, 2, 4] := by decide
example : parse_u256_csv "1,abc,3".data =
    Except.error "Invalid value: abc" := by decide

theorem splitComma_ne_nil (cs : List Char) : splitComma cs ≠ [] := by
  induction cs with
  | nil => simp [splitComma]
  | cons c rest ih =>
    simp only [splitComma]
    split
    · simp
    · cases h : splitComma rest <;> simp

theorem traverseExcept_ok_mem {α β : Type} {f : α → Except String β} {l : List α}
    {bs : List β} (h : traverseExcept f l = Except.ok bs) :
    ∀ a ∈ l, ∃ b, f a = Except.ok b := by
  induction l generalizing bs with
  | nil => simp
  | cons x xs ih =>
    intro a ha
    simp only [traverseExcept] at h
    cases hfx : f x with
    | error e => rw [hfx] at h; cases h
    | ok b =>
      rw [hfx] at h
      cases hrest : traverseExcept f xs with
      | error e => rw [hrest] at h; cases h
      | ok bs' =>
        rcases List.mem_cons.1 ha with rfl | ha'
        · exact ⟨b, hfx⟩
        · exact ih hrest a ha'

theorem traverseExcept_ok_of_forall {α β : Type} {f : α → Except String β}
    {g : α → β} {l : List α} (h : ∀ a ∈ l, f a = Except.ok (g a)) :
    traverseExcept f l = Except.ok (l.map g) := by
  induction l with
  | nil => simp [traverseExcept]
  | cons x xs ih =>
    simp only [traverseExcept, List.map]
    rw [h x (by simp), ih fun a ha => h a (by simp [ha])]

theorem traverseExcept_ok_length {α β : Type} {f : α → Except String β} {l : List α}
    {bs : List β} (h : traverseExcept f l = Except.ok bs) : bs.length = l.length := by
  induction l generalizing bs with
  | nil => simp only [traverseExcept] at h; cases h; rfl
  | cons x xs ih =>
    simp only [traverseExcept] at h
    cases hfx : f x with
    | error e => rw [hfx] at h; cases h
    | ok b =>
      rw [hfx] at h
      cases hrest : traverseExcept f xs with
      | error e => rw [hrest] at h; cases h
      | ok bs' =>
        rw [hrest] at h
        cases h
        simp [ih hrest]

theorem traverseExcept_error_of_mem {α β : Type} {f : α → Except String β}
    {l : List α} {a : α} {ea : String} (ha : a ∈ l) (hfa : f a = Except.error ea) :
    ∃ a' e, a' ∈ l ∧ f a' = Except.error e ∧ traverseExcept f l = Except.error e := by
  induction l with
  | nil => cases ha
  | cons x xs ih =>
    cases hfx : f x with
    | error e =>
      exact ⟨x, e, List.mem_cons_self x xs, hfx, by simp only [traverseExcept, hfx]⟩
    | ok b =>
      have ha' : a ∈ xs := by
        rcases List.mem_cons.1 ha with rfl | h'
        · rw [hfx] at hfa; cases hfa
        · exact h'
      obtain ⟨a', e, hmem, hfa', htr⟩ := ih ha'
      exact ⟨a', e, List.mem_cons_of_mem x hmem, hfa',
        by simp only [traverseExcept, hfx, htr]⟩

theorem castF64ToU64_le_u64Max (x : ℚ) : castF64ToU64 x ≤ u64Max :=
  min_le_right _ _

theorem castF64ToU64_eq_floor {x : ℚ} (h : x < (2 : ℚ) ^ 64) :
    castF64ToU64 x = Int.toNat ⌊x⌋ := by
  have h1 : ⌊x⌋ < (2 : ℤ) ^ 64 := by
    rw [Int.floor_lt]
    push_cast
    exact h
  have h2 : (2 : ℤ) ^ 64 = 18446744073709551616 := by norm_num
  have h3 : Int.toNat ⌊x⌋ ≤ 2 ^ 64 - 1 := by omega
  simpa [castF64ToU64, u64Max] using min_eq_left h3

theorem roundHalfEven_intCast (k : ℤ) : roundHalfEven (k : ℚ) = k := by
  rw [roundHalfEven, Int.floor_intCast, if_pos (by norm_num)]

theorem roundHalfEven_sub_le (x : ℚ) : |(roundHalfEven x : ℚ) - x| ≤ 1 / 2 := by
  have h0 : (⌊x⌋ : ℚ) ≤ x := Int.floor_le x
  have h1 : x < ⌊x⌋ + 1 := Int.lt_floor_add_one x
  rw [roundHalfEven]
  split
  · rename_i h
    rw [abs_le]
    constructor <;> linarith
  · split
    · rename_i h h'
      rw [abs_le]
      constructor <;> push_cast <;> linarith
    · rename_i h h'
      split <;> (rw [abs_le]; constructor <;> push_cast <;> linarith)

theorem log2_div_bounds (N D : ℕ) (hN0 : N ≠ 0) (hD0 : D ≠ 0) :
    (2 : ℚ) ^ ((Nat.log2 N : ℤ) - (Nat.log2 D : ℤ) - 1) < (N : ℚ) / D ∧
    (N : ℚ) / D < (2 : ℚ) ^ ((Nat.log2 N : ℤ) - (Nat.log2 D : ℤ) + 1) := by
  have hdpos : (0 : ℚ) < (D : ℚ) := by exact_mod_cast Nat.pos_of_ne_zero hD0
  have ha1 : (2 : ℚ) ^ ((Nat.log2 N : ℤ)) ≤ (N : ℚ) := by
    rw [zpow_natCast]
    exact_mod_cast Nat.log2_self_le hN0
  have ha2 : ((N : ℚ)) < (2 : ℚ) ^ ((Nat.log2 N : ℤ) + 1) := by
    rw [show (Nat.log2 N : ℤ) + 1 = ((Nat.log2 N + 1 : ℕ) : ℤ) from by omega]
    rw [zpow_natCast]
    exact_mod_cast Nat.lt_log2_self
  have hb1 : (2 : ℚ) ^ ((Nat.log2 D : ℤ)) ≤ (D : ℚ) := by
    rw [zpow_natCast]
    exact_mod_cast Nat.log2_self_le hD0
  have hb2 : ((D : ℚ)) < (2 : ℚ) ^ ((Nat.log2 D : ℤ) + 1) := by
    rw [show (Nat.log2 D : ℤ) + 1 = ((Nat.log2 D + 1 : ℕ) : ℤ) from by omega]
    rw [zpow_natCast]
    exact_mod_cast Nat.lt_log2_self
  constructor
  · rw [lt_div_iff₀ hdpos]
    calc (2 : ℚ) ^ ((Nat.log2 N : ℤ) - (Nat.log2 D : ℤ) - 1) * (D : ℚ)
        < (2 : ℚ) ^ ((Nat.log2 N : ℤ) - (Nat.log2 D : ℤ) - 1) *
            (2 : ℚ) ^ ((Nat.log2 D : ℤ) + 1) :=
          mul_lt_mul_of_pos_left hb2 (zpow_pos (by norm_num) _)
      _ = (2 : ℚ) ^ ((Nat.log2 N : ℤ)) := by
          rw [← zpow_add₀ (by norm_num : (2 : ℚ) ≠ 0)]
          congr 1
          ring
      _ ≤ (N : ℚ) := ha1
  · rw [div_lt_iff₀ hdpos]
    calc (N : ℚ)
        < (2 : ℚ) ^ ((Nat.log2 N : ℤ) + 1) := ha2
      _ = (2 : ℚ) ^ ((Nat.log2 N : ℤ) - (Nat.log2 D : ℤ) + 1) *
            (2 : ℚ) ^ ((Nat.log2 D : ℤ)) := by
          rw [← zpow_add₀ (by norm_num : (2 : ℚ) ≠ 0)]
          congr 1
          ring
      _ ≤ (2 : ℚ) ^ ((Nat.log2 N : ℤ) - (Nat.log2 D : ℤ) + 1) * (D : ℚ) :=
          mul_le_mul_of_nonneg_left hb1 (zpow_pos (by norm_num) _).le

theorem ratLog2Floor_spec (q : ℚ) (hq : 0 < q) :
    (2 : ℚ) ^ ratLog2Floor q ≤ q ∧ q < (2 : ℚ) ^ (ratLog2Floor q + 1) := by
  have hnum : 0 < q.num := Rat.num_pos.2 hq
  have hN0 : q.num.toNat ≠ 0 := by omega
  have hD0 : q.den ≠ 0 := q.den_nz
  have hqe : q = (q.num.toNat : ℚ) / (q.den : ℚ) := by
    rw [show ((q.num.toNat : ℚ)) = ((q.num : ℚ)) from by
      exact_mod_cast congrArg (fun z : ℤ => (z : ℚ)) (Int.toNat_of_nonneg hnum.le)]
    exact (Rat.num_div_den q).symm
  obtain ⟨hl, hu⟩ := log2_div_bounds q.num.toNat q.den hN0 hD0
  rw [← hqe] at hl hu
  rw [ratLog2Floor]
  by_cases h : (2 : ℚ) ^ ((Nat.log2 q.num.toNat : ℤ) - (Nat.log2 q.den : ℤ)) ≤ q
  · rw [if_pos h]
    exact ⟨h, hu⟩
  · rw [if_neg h]
    push_neg at h
    refine ⟨hl.le, ?_⟩
    rw [show (Nat.log2 q.num.toNat : ℤ) - (Nat.log2 q.den : ℤ) - 1 + 1 =
      (Nat.log2 q.num.toNat : ℤ) - (Nat.log2 q.den : ℤ) from by ring]
    exact h

theorem ratLog2Floor_eq_of {q : ℚ} {e : ℤ} (hq : 0 < q)
    (h1 : (2 : ℚ) ^ e ≤ q) (h2 : q < (2 : ℚ) ^ (e + 1)) : ratLog2Floor q = e := by
  obtain ⟨hs1, hs2⟩ := ratLog2Floor_spec q hq
  by_contra hne
  rcases lt_or_gt_of_ne hne with hlt | hgt
  · have : (2 : ℚ) ^ (ratLog2Floor q + 1) ≤ (2 : ℚ) ^ e :=
      zpow_le_zpow_right₀ (by norm_num) (by omega)
    linarith
  · have : (2 : ℚ) ^ (e + 1) ≤ (2 : ℚ) ^ ratLog2Floor q :=
      zpow_le_zpow_right₀ (by norm_num) (by omega)
    linarith

theorem fl64_eval {q : ℚ} {e m : ℤ} (hq : 0 < q)
    (h1 : (2 : ℚ) ^ e ≤ q) (h2 : q < (2 : ℚ) ^ (e + 1)) (he : -1022 ≤ e)
    (hm : roundHalfEven (q * (2 : ℚ) ^ (52 - e)) = m) :
    fl64 q = (m : ℚ) * (2 : ℚ) ^ (e - 52) := by
  rw [fl64, if_neg (not_lt.2 hq.le), if_neg hq.ne', fl64Pos,
    ratLog2Floor_eq_of hq h1 h2,
    max_eq_left (by omega : (-1074 : ℤ) ≤ e - 52),
    show -(e - 52) = 52 - e from by ring, hm]

theorem fl64_natCast (n : ℕ) (h0 : n ≠ 0) (h53 : n < 2 ^ 53) :
    fl64 (n : ℚ) = n := by
  have hq : (0 : ℚ) < n := by exact_mod_cast Nat.pos_of_ne_zero h0
  have ha52 : Nat.log2 n ≤ 52 := by
    have := (Nat.log2_lt h0).2 h53
    omega
  have harg : (n : ℚ) * (2 : ℚ) ^ ((52 : ℤ) - (Nat.log2 n : ℤ)) =
      (((n * 2 ^ (52 - Nat.log2 n) : ℕ) : ℤ) : ℚ) := by
    rw [show (52 : ℤ) - (Nat.log2 n : ℤ) = ((52 - Nat.log2 n : ℕ) : ℤ) from by omega]
    rw [zpow_natCast]
    push_cast
    ring
  have h1 : (2 : ℚ) ^ ((Nat.log2 n : ℤ)) ≤ (n : ℚ) := by
    rw [zpow_natCast]
    exact_mod_cast Nat.log2_self_le h0
  have h2 : (n : ℚ) < (2 : ℚ) ^ ((Nat.log2 n : ℤ) + 1) := by
    rw [show (Nat.log2 n : ℤ) + 1 = ((Nat.log2 n + 1 : ℕ) : ℤ) from by omega]
    rw [zpow_natCast]
    exact_mod_cast Nat.lt_log2_self
  have hm : roundHalfEven ((n : ℚ) * (2 : ℚ) ^ ((52 : ℤ) - (Nat.log2 n : ℤ))) =
      ((n * 2 ^ (52 - Nat.log2 n) : ℕ) : ℤ) := by
    rw [harg, roundHalfEven_intCast]
  rw [fl64_eval hq h1 h2 (by omega) hm]
  push_cast
  rw [mul_assoc, ← zpow_natCast (2 : ℚ) (52 - Nat.log2 n),
    ← zpow_add₀ (by norm_num : (2 : ℚ) ≠ 0)]
  rw [show ((52 - Nat.log2 n : ℕ) : ℤ) + ((Nat.log2 n : ℤ) - 52) = 0 from by omega]
  rw [zpow_zero, mul_one]

theorem fl64_zero : fl64 (0 : ℚ) = 0 := by
  rw [fl64, if_neg (lt_irrefl 0), if_pos rfl]

theorem fl64_eval_10000 : fl64 (10000 : ℚ) = 10000 := by
  have h := fl64_natCast 10000 (by norm_num) (by norm_num)
  push_cast at h
  exact h

theorem fl64_eval_1500000 : fl64 (1500000 : ℚ) = 1500000 := by
  have h := fl64_natCast 1500000 (by norm_num) (by norm_num)
  push_cast at h
  exact h

theorem fl64_eval_2500000 : fl64 (2500000 : ℚ) = 2500000 := by
  have h := fl64_natCast 2500000 (by norm_num) (by norm_num)
  push_cast at h
  exact h

theorem fl64_eval_5000000 : fl64 (5000000 : ℚ) = 5000000 := by
  have h := fl64_natCast 5000000 (by norm_num) (by norm_num)
  push_cast at h
  exact h

theorem fl64_eval_10000000 : fl64 (10000000 : ℚ) = 10000000 := by
  have h := fl64_natCast 10000000 (by norm_num) (by norm_num)
  push_cast at h
  exact h

example : parse_usdc_amount 10 = Except.ok 10000000 := by
  norm_num +decide [parse_usdc_amount, castF64ToU64, fl64_eval_10000000,
    USDC_DECIMALS, u64Max, min_def]
example : parse_usdc_amount (3 / 2) = Except.ok 1500000 := by
  norm_num +decide [parse_usdc_amount, castF64ToU64, fl64_eval_1500000,
    USDC_DECIMALS, u64Max, min_def]
example : parse_usdc_amount (1 / 100) = Except.ok 10000 := by
  norm_num +decide [parse_usdc_amount, castF64ToU64, fl64_eval_10000,
    USDC_DECIMALS, u64Max, min_def]
example : parse_usdc_amounts "10, 5, 2.5".data =
    Except.ok [10000000, 5000000, 2500000] := by
  norm_num +decide [parse_usdc_amounts, parse_usdc_amounts_elem, traverseExcept,
    splitComma, trim, parseDecimal, takeDigits, digitVal, digitsToNat,
    fl64_eval_10000000, fl64_eval_5000000, fl64_eval_2500000,
    castF64ToU64, USDC_DECIMALS, u64Max, min_def]

theorem fl64_close (q : ℚ) (hq : (2 : ℚ) ^ (-1022 : ℤ) ≤ q) :
    |fl64 q - q| ≤ q / 2 ^ 52 := by
  have hq0 : 0 < q := lt_of_lt_of_le (zpow_pos (by norm_num) _) hq
  obtain ⟨h1, h2⟩ := ratLog2Floor_spec q hq0
  have he : (-1022 : ℤ) ≤ ratLog2Floor q := by
    by_contra hcon
    push_neg at hcon
    have hle : (2 : ℚ) ^ (ratLog2Floor q + 1) ≤ (2 : ℚ) ^ (-1022 : ℤ) :=
      zpow_le_zpow_right₀ (by norm_num) (by omega)
    linarith
  rw [fl64, if_neg (not_lt.2 hq0.le), if_neg hq0.ne', fl64Pos,
    max_eq_left (by omega : (-1074 : ℤ) ≤ ratLog2Floor q - 52)]
  have hs2 : (0 : ℚ) < (2 : ℚ) ^ (ratLog2Floor q - 52) := zpow_pos (by norm_num) _
  have hr := roundHalfEven_sub_le (q * (2 : ℚ) ^ (-(ratLog2Floor q - 52)))
  have key : (roundHalfEven (q * (2 : ℚ) ^ (-(ratLog2Floor q - 52))) : ℚ) *
        (2 : ℚ) ^ (ratLog2Floor q - 52) - q =
      ((roundHalfEven (q * (2 : ℚ) ^ (-(ratLog2Floor q - 52))) : ℚ) -
        q * (2 : ℚ) ^ (-(ratLog2Floor q - 52))) *
        (2 : ℚ) ^ (ratLog2Floor q - 52) := by
    rw [sub_mul, mul_assoc, ← zpow_add₀ (by norm_num : (2 : ℚ) ≠ 0)]
    norm_num
  rw [key, abs_mul, abs_of_pos hs2]
  have step1 : |(roundHalfEven (q * (2 : ℚ) ^ (-(ratLog2Floor q - 52))) : ℚ) -
        q * (2 : ℚ) ^ (-(ratLog2Floor q - 52))| *
        (2 : ℚ) ^ (ratLog2Floor q - 52) ≤
      (1 / 2) * (2 : ℚ) ^ (ratLog2Floor q - 52) :=
    mul_le_mul_of_nonneg_right hr hs2.le
  have h3 : (2 : ℚ) ^ (ratLog2Floor q - 52) ≤ q * (2 : ℚ) ^ (-52 : ℤ) := by
    rw [show (2 : ℚ) ^ (ratLog2Floor q - 52) =
        (2 : ℚ) ^ ratLog2Floor q * (2 : ℚ) ^ (-52 : ℤ) from by
      rw [← zpow_add₀ (by norm_num : (2 : ℚ) ≠ 0)]
      congr 1]
    exact mul_le_mul_of_nonneg_right h1 (zpow_pos (by norm_num) _).le
  have h4 : q * (2 : ℚ) ^ (-52 : ℤ) = q / 2 ^ 52 := by
    have hpow : (2 : ℚ) ^ (-52 : ℤ) = ((2 : ℚ) ^ (52 : ℕ))⁻¹ := by
      rw [zpow_neg, ← zpow_natCast (2 : ℚ) 52]
      norm_num
    rw [hpow, div_eq_mul_inv]
  have h5 : (0 : ℚ) < q / 2 ^ 52 := by positivity
  calc |(roundHalfEven (q * (2 : ℚ) ^ (-(ratLog2Floor q - 52))) : ℚ) -
        q * (2 : ℚ) ^ (-(ratLog2Floor q - 52))| *
        (2 : ℚ) ^ (ratLog2Floor q - 52)
      ≤ (1 / 2) * (2 : ℚ) ^ (ratLog2Floor q - 52) := step1
    _ ≤ q / 2 ^ 52 := by
        rw [h4] at h3
        linarith

theorem usdc_scale_floor_ten_pow_twenty :
    ⌊((10 : ℚ) ^ 20) * (USDC_DECIMALS : ℚ)⌋ = 10 ^ 26 := by
  have hc : ((10 : ℚ) ^ 20) * (USDC_DECIMALS : ℚ) = ((10 ^ 26 : ℕ) : ℚ) := by
    simp only [USDC_DECIMALS]
    push_cast
    ring
  rw [hc, Int.floor_natCast]
  norm_num

theorem parse_usdc_amount_ten_pow_twenty :
    parse_usdc_amount ((10 : ℚ) ^ 20) = Except.ok (2 ^ 64 - 1) := by
  have harg : ((10 : ℚ) ^ 20) * (USDC_DECIMALS : ℚ) = 10 ^ 26 := by
    simp only [USDC_DECIMALS]
    push_cast
    ring
  have hm : roundHalfEven (((10 : ℚ) ^ 26) * (2 : ℚ) ^ ((52 : ℤ) - 86)) =
      5820766091346741 := by
    have hX : ((10 : ℚ) ^ 26) * (2 : ℚ) ^ ((52 : ℤ) - 86) =
        (100000000000000000000000000 : ℚ) / 17179869184 := by
      norm_num
    have hfloor : ⌊(100000000000000000000000000 : ℚ) / 17179869184⌋ =
        5820766091346740 := by
      rw [Int.floor_eq_iff]
      constructor <;> norm_num
    rw [hX, roundHalfEven, hfloor, if_neg (by push_cast; norm_num),
      if_pos (by push_cast; norm_num)]
    norm_num
  have hfl : fl64 ((10 : ℚ) ^ 26) =
      (5820766091346741 : ℚ) * (2 : ℚ) ^ ((86 : ℤ) - 52) :=
    @fl64_eval ((10 : ℚ) ^ 26) 86 5820766091346741 (by positivity) (by norm_num)
      (by norm_num) (by norm_num) hm
  have hval : (5820766091346741 : ℚ) * (2 : ℚ) ^ ((86 : ℤ) - 52) =
      ((100000000000000004764729344 : ℤ) : ℚ) := by
    push_cast
    norm_num
  rw [parse_usdc_amount, if_pos (by positivity), harg, castF64ToU64, hfl, hval,
    Int.floor_intCast]
  decide

/-- C1, counterexample: the claim as stated is false on the code — the
amount `d = 10^20` is accepted by the normalizer (`d > 0`), yet the result
is the saturated 64-bit value `2^64 - 1`, while `floor(d * 1_000_000)` is
`10^26`, a different number. -/
theorem amount_floor_counterexample :
    (0 : ℚ) < 10 ^ 20 ∧
    parse_usdc_amount ((10 : ℚ) ^ 20) = Except.ok (2 ^ 64 - 1) ∧
    ⌊((10 : ℚ) ^ 20) * (USDC_DECIMALS : ℚ)⌋ = 10 ^ 26 ∧
    (2 ^ 64 - 1 : ℕ) ≠ Int.toNat (10 ^ 26) :=
  ⟨by positivity, parse_usdc_amount_ten_pow_twenty,
   usdc_scale_floor_ten_pow_twenty, by decide⟩

/-- C1, amended: for every positive decimal amount `d` (with scaled value
in the binary64 normal range) the normalizer returns the truncation toward
zero of the IEEE-754 round-to-nearest-even product `fl64(d * 1_000_000)`,
saturated at `2^64 - 1`; the rounded product differs from the exact
product by at most one part in `2^52`, but rounding can cross an integer,
so the result is not `floor` of the exact product in general: at the
double nearest 4.35, `2448832297382707 / 2^49`, the normalizer returns
`4350000` while the exact product floors to `4349999`.  The spec's
examples `normalize(10.0) = 10_000_000`, `normalize(1.5) = 1_500_000`
and `normalize(0.01) = 10_000` hold. -/
theorem amount_truncates_toward_zero (d : ℚ) (hpos : 0 < d)
    (hnormal : (2 : ℚ) ^ (-1022 : ℤ) ≤ d * (USDC_DECIMALS : ℚ)) :
    parse_usdc_amount d =
      Except.ok (min (Int.toNat ⌊fl64 (d * (USDC_DECIMALS : ℚ))⌋) (2 ^ 64 - 1)) ∧
    |fl64 (d * (USDC_DECIMALS : ℚ)) - d * (USDC_DECIMALS : ℚ)| ≤
      d * (USDC_DECIMALS : ℚ) / 2 ^ 52 ∧
    parse_usdc_amount 10 = Except.ok 10000000 ∧
    parse_usdc_amount (3 / 2) = Except.ok 1500000 ∧
    parse_usdc_amount (1 / 100) = Except.ok 10000 ∧
    parse_usdc_amount (2448832297382707 / 2 ^ 49) = Except.ok 4350000 ∧
    ⌊(2448832297382707 / 2 ^ 49 : ℚ) * (USDC_DECIMALS : ℚ)⌋ = 4349999 := by
  have harg : (2448832297382707 / 2 ^ 49 : ℚ) * (USDC_DECIMALS : ℚ) =
      (2448832297382707000000 : ℚ) / 562949953421312 := by
    simp only [USDC_DECIMALS]
    push_cast
    norm_num
  refine ⟨?_, fl64_close _ hnormal, ?_, ?_, ?_, ?_, ?_⟩
  · rw [parse_usdc_amount, if_pos hpos]
    rfl
  · norm_num +decide [parse_usdc_amount, castF64ToU64, fl64_eval_10000000,
      USDC_DECIMALS, u64Max, min_def]
  · norm_num +decide [parse_usdc_amount, castF64ToU64, fl64_eval_1500000,
      USDC_DECIMALS, u64Max, min_def]
  · norm_num +decide [parse_usdc_amount, castF64ToU64, fl64_eval_10000,
      USDC_DECIMALS, u64Max, min_def]
  · have hm : roundHalfEven (((2448832297382707000000 : ℚ) / 562949953421312) *
        (2 : ℚ) ^ ((52 : ℤ) - 22)) = 4670776934400000 := by
      have hX : ((2448832297382707000000 : ℚ) / 562949953421312) *
          (2 : ℚ) ^ ((52 : ℤ) - 22) = (2448832297382707000000 : ℚ) / 524288 := by
        norm_num
      have hfloor : ⌊(2448832297382707000000 : ℚ) / 524288⌋ =
          4670776934399999 := by
        rw [Int.floor_eq_iff]
        constructor <;> norm_num
      rw [hX, roundHalfEven, hfloor, if_neg (by push_cast; norm_num),
        if_pos (by push_cast; norm_num)]
      norm_num
    have hfl : fl64 ((2448832297382707000000 : ℚ) / 562949953421312) =
        (4670776934400000 : ℚ) * (2 : ℚ) ^ ((22 : ℤ) - 52) :=
      @fl64_eval ((2448832297382707000000 : ℚ) / 562949953421312) 22
        4670776934400000 (by positivity) (by norm_num) (by norm_num)
        (by norm_num) hm
    have hval : (4670776934400000 : ℚ) * (2 : ℚ) ^ ((22 : ℤ) - 52) = 4350000 := by
      norm_num
    rw [parse_usdc_amount, if_pos (by positivity), harg, castF64ToU64, hfl, hval,
      show (4350000 : ℚ) = ((4350000 : ℤ) : ℚ) from by norm_num,
      Int.floor_intCast]
    decide
  · rw [harg, Int.floor_eq_iff]
    constructor <;> norm_num

/-- C1, witness for the amended theorem at `d = 3/2`. -/
theorem amount_truncates_toward_zero_witness :
    parse_usdc_amount (3 / 2) = Except.ok 1500000 :=
  (amount_truncates_toward_zero (3 / 2) (by norm_num)
    (by
      calc (2 : ℚ) ^ (-1022 : ℤ) ≤ (2 : ℚ) ^ (0 : ℤ) :=
            zpow_le_zpow_right₀ (by norm_num) (by norm_num)
        _ ≤ (3 / 2) * (USDC_DECIMALS : ℚ) := by norm_num [USDC_DECIMALS])).2.2.2.1

/-- C2: the split/merge amount normalizer fails exactly when its input is
not strictly positive — every `d ≤ 0` (including `0.0` and `-5.0`) is an
error and every `d > 0` returns a value. -/
theorem amount_fails_iff_nonpositive (d : ℚ) :
    ((∃ e, parse_usdc_amount d = Except.error e) ↔ d ≤ 0) ∧
    (0 < d → ∃ n, parse_usdc_amount d = Except.ok n) ∧
    parse_usdc_amount 0 = Except.error "Amount must be positive" ∧
    parse_usdc_amount (-5) = Except.error "Amount must be positive" := by
  refine ⟨⟨?_, ?_⟩, ?_, ?_, ?_⟩
  · intro ⟨e, he⟩
    by_contra hlt
    rw [parse_usdc_amount, if_pos (lt_of_not_ge hlt)] at he
    cases he
  · intro hle
    rw [parse_usdc_amount, if_neg (not_lt.2 hle)]
    exact ⟨_, rfl⟩
  · intro hpos
    rw [parse_usdc_amount, if_pos hpos]
    exact ⟨_, rfl⟩
  · rw [parse_usdc_amount, if_neg (by norm_num)]
  · rw [parse_usdc_amount, if_neg (by norm_num)]

/-- C2, witness at `d = -5` and `d = 3`. -/
theorem amount_fails_iff_nonpositive_witness :
    (∃ e, parse_usdc_amount (-5) = Except.error e) ∧
    (∃ n, parse_usdc_amount 3 = Except.ok n) :=
  ⟨(amount_fails_iff_nonpositive (-5)).1.2 (by norm_num),
   (amount_fails_iff_nonpositive 3).2.1 (by norm_num)⟩

theorem parse_u256_csv_elem_error_iff {p : List Char} {e : String} :
    parse_u256_csv_elem p = Except.error e ↔
      parseU64 (trim p) = none ∧ e = "Invalid value: " ++ (trim p).asString := by
  cases h : parseU64 (trim p) <;> simp [parse_u256_csv_elem, h, eq_comm]

theorem parse_u256_csv_elem_ok_getD {p : List Char}
    (h : (parseU64 (trim p)).isSome) :
    parse_u256_csv_elem p = Except.ok ((parseU64 (trim p)).getD 0) := by
  obtain ⟨n, hn⟩ := Option.isSome_iff_exists.1 h
  simp [parse_u256_csv_elem, hn]

/-- C6: the integer-CSV parser splits on commas, trims each element and
parses it as a non-negative integer; a well-formed input returns the full
list in order, while an empty or non-numeric element (as in `1,abc,3`)
fails the whole parse with no partial list, surfacing the offending
element's value in the error message. -/
theorem csv_parse_characterization (s : List Char) :
    ((∀ part ∈ splitComma s, (parseU64 (trim part)).isSome) →
      parse_u256_csv s =
        Except.ok ((splitComma s).map fun p => (parseU64 (trim p)).getD 0)) ∧
    (∀ part ∈ splitComma s, parseU64 (trim part) = none →
      ∃ bad ∈ splitComma s, parseU64 (trim bad) = none ∧
        parse_u256_csv s = Except.error ("Invalid value: " ++ (trim bad).asString)) ∧
    parse_u256_csv "1,2".data = Except.ok [1, 2] ∧
    parse_u256_csv "1, 2, 4".data = Except.ok [1, 2, 4] ∧
    parse_u256_csv "1,abc,3".data = Except.error "Invalid value: abc" := by
  refine ⟨?_, ?_, by decide, by decide, by decide⟩
  · intro hall
    exact traverseExcept_ok_of_forall fun p hp => parse_u256_csv_elem_ok_getD (hall p hp)
  · intro part hmem hnone
    have helem : parse_u256_csv_elem part =
        Except.error ("Invalid value: " ++ (trim part).asString) := by
      simp [parse_u256_csv_elem, hnone]
    obtain ⟨a', e, hmem', hfa', htr⟩ := traverseExcept_error_of_mem hmem helem
    obtain ⟨hnone', he⟩ := parse_u256_csv_elem_error_iff.1 hfa'
    exact ⟨a', hmem', hnone', by rw [parse_u256_csv, htr, he]⟩

/-- C6, witness: the well-formed clause applied to the input `7`. -/
theorem csv_parse_characterization_witness :
    parse_u256_csv "7".data =
      Except.ok ((splitComma "7".data).map fun p => (parseU64 (trim p)).getD 0) :=
  (csv_parse_characterization "7".data).1 (by decide)

/-- C10: a successful parse by either comma-separated parser yields at
least one element, and inputs implying an empty or missing element — the
empty string, or a trailing comma as in `1,2,` — fail the whole parse. -/
theorem csv_parsers_never_return_empty (s : List Char) :
    (∀ l, parse_u256_csv s = Except.ok l → l ≠ []) ∧
    (∀ l, parse_usdc_amounts s = Except.ok l → l ≠ []) ∧
    (∀ part ∈ splitComma s, trim part = [] →
      (∃ e, parse_u256_csv s = Except.error e) ∧
      (∃ e, parse_usdc_amounts s = Except.error e)) ∧
    (∃ e, parse_u256_csv "".data = Except.error e) ∧
    (∃ e, parse_u256_csv "1,2,".data = Except.error e) ∧
    (∃ e, parse_usdc_amounts "".data = Except.error e) ∧
    (∃ e, parse_usdc_amounts "1.5,".data = Except.error e) := by
  have hempty : ∀ t : List Char, ∀ part ∈ splitComma t, trim part = [] →
      (∃ e, parse_u256_csv t = Except.error e) ∧
      (∃ e, parse_usdc_amounts t = Except.error e) := by
    intro t part hmem htrim
    constructor
    · have helem : parse_u256_csv_elem part =
          Except.error ("Invalid value: " ++ (trim part).asString) := by
        simp [parse_u256_csv_elem, htrim, parseU64, parseDigits]
      obtain ⟨a', e, _, _, htr⟩ := traverseExcept_error_of_mem hmem helem
      exact ⟨e, htr⟩
    · have helem : parse_usdc_amounts_elem part =
          Except.error ("Invalid amount: " ++ (trim part).asString) := by
        simp [parse_usdc_amounts_elem, htrim, parseDecimal, takeDigits]
      obtain ⟨a', e, _, _, htr⟩ := traverseExcept_error_of_mem hmem helem
      exact ⟨e, htr⟩
  refine ⟨?_, ?_, hempty s, ⟨"Invalid value: ", by decide⟩,
    ⟨"Invalid value: ", by decide⟩, ?_, ?_⟩
  · intro l hl
    have h1 := traverseExcept_ok_length hl
    have h2 := splitComma_ne_nil s
    intro hnil
    rw [hnil] at h1
    exact h2 (List.eq_nil_of_length_eq_zero h1.symm)
  · intro l hl
    have h1 := traverseExcept_ok_length hl
    have h2 := splitComma_ne_nil s
    intro hnil
    rw [hnil] at h1
    exact h2 (List.eq_nil_of_length_eq_zero h1.symm)
  · exact (hempty "".data [] (by decide) (by decide)).2
  · exact (hempty "1.5,".data [] (by decide) (by decide)).2

/-- C10, witness: a lone comma fails both parsers. -/
theorem csv_parsers_never_return_empty_witness :
    (∃ e, parse_u256_csv ",".data = Except.error e) ∧
    (∃ e, parse_usdc_amounts ",".data = Except.error e) :=
  (csv_parsers_never_return_empty ",".data).2.2.1 [] (by decide) (by decide)

theorem hexDigitsAux_isSome (l : List Char) (acc : ℕ) :
    (hexDigitsAux l acc).isSome = l.all fun c => (hexVal c).isSome := by
  induction l generalizing acc with
  | nil => rfl
  | cons c rest ih =>
    simp only [hexDigitsAux, List.all_cons]
    cases h : hexVal c <;> simp [h, ih]

/-- C4: omitting the partition or index-set argument yields exactly
`[1, 2]`; supplying a comma-separated string delegates to the integer-CSV
parser and returns its result verbatim, preserving element order. -/
theorem partition_default_and_delegation :
    build_partition none = Except.ok [1, 2] ∧
    build_index_sets none = Except.ok [1, 2] ∧
    (∀ s, build_partition (some s) = parse_u256_csv s) ∧
    (∀ s, build_index_sets (some s) = parse_u256_csv s) ∧
    default_partition = [1, 2] ∧ default_index_sets = [1, 2] :=
  ⟨rfl, rfl, fun _ => rfl, fun _ => rfl, rfl, rfl⟩

/-- C5: an omitted parent-collection resolves successfully to the all-zero
32-byte identifier (modelled as `0`); a supplied one is parsed with the
ConditionId-shaped hex parser, which succeeds exactly on `0x`-prefixed
64-hex-digit strings — a valid string yields its identifier and garbage
fails. -/
theorem parent_collection_default_and_parse (s : List Char) :
    parse_optional_parent none = Except.ok 0 ∧
    parse_optional_parent (some s) = parse_condition_id s ∧
    ((∃ n, parse_condition_id s = Except.ok n) ↔ validHex32 s = true) ∧
    parse_optional_parent
      (some "0x0000000000000000000000000000000000000000000000000000000000000001".data) =
      Except.ok 1 ∧
    (∃ e, parse_optional_parent (some "garbage".data) = Except.error e) := by
  refine ⟨rfl, rfl, ?_, by decide, ⟨"invalid hex identifier: garbage", by decide⟩⟩
  unfold parse_condition_id validHex32
  split
  · rename_i rest
    by_cases hlen : rest.length = 64
    · rw [if_pos hlen]
      cases hh : hexDigitsAux rest 0 with
      | none =>
        have hall := hexDigitsAux_isSome rest 0
        rw [hh] at hall
        simp [hlen, ← hall]
      | some n =>
        have hall := hexDigitsAux_isSome rest 0
        rw [hh] at hall
        simp [hlen, ← hall]
    · simp [if_neg hlen, hlen]
  · simp

/-- C5, witness: the delegation clause of the theorem at a concrete
garbage input. -/
theorem parent_collection_default_and_parse_witness :
    parse_optional_parent (some "garbage".data) = parse_condition_id "garbage".data :=
  (parent_collection_default_and_parse "garbage".data).2.1

theorem traverseExcept_ok_mem_of {α β : Type} {f : α → Except String β}
    {l : List α} {bs : List β} {P : β → Prop}
    (h : traverseExcept f l = Except.ok bs)
    (hf : ∀ a b, f a = Except.ok b → P b) : ∀ b ∈ bs, P b := by
  induction l generalizing bs with
  | nil => simp only [traverseExcept] at h; cases h; simp
  | cons x xs ih =>
    simp only [traverseExcept] at h
    cases hfx : f x with
    | error e => rw [hfx] at h; cases h
    | ok b =>
      rw [hfx] at h
      cases hrest : traverseExcept f xs with
      | error e => rw [hrest] at h; cases h
      | ok bs' =>
        rw [hrest] at h
        cases h
        intro b' hb'
        rcases List.mem_cons.1 hb' with rfl | hb''
        · exact hf x b' hfx
        · exact ih hrest b' hb''

theorem parse_usdc_amounts_elem_ok_le {p : List Char} {n : ℕ}
    (h : parse_usdc_amounts_elem p = Except.ok n) : n ≤ u64Max := by
  simp only [parse_usdc_amounts_elem] at h
  split at h
  · cases h
  · split at h
    · cases h
      exact castF64ToU64_le_u64Max _
    · cases h

theorem parse_usdc_amounts_ten :
    parse_usdc_amounts "10".data = Except.ok [10000000] := by
  norm_num +decide [parse_usdc_amounts, parse_usdc_amounts_elem, traverseExcept,
    splitComma, trim, parseDecimal, takeDigits, digitVal, digitsToNat,
    fl64_eval_10000000, castF64ToU64, USDC_DECIMALS, u64Max, min_def]

/-- C9: every fixed-point amount the normalizer produces, in single-amount
and list form, is at most `2^64 - 1`: the conversion passes through a
saturating 64-bit cast before widening, so an astronomically large decimal
input (here `10^20`) yields `u64::MAX` rather than a larger value or an
error. -/
theorem amounts_saturate_at_u64_max :
    (∀ d : ℚ, 0 < d → ∃ n, parse_usdc_amount d = Except.ok n ∧ n ≤ 2 ^ 64 - 1) ∧
    (∀ s l, parse_usdc_amounts s = Except.ok l → ∀ n ∈ l, n ≤ 2 ^ 64 - 1) ∧
    parse_usdc_amount ((10 : ℚ) ^ 20) = Except.ok (2 ^ 64 - 1) := by
  refine ⟨?_, ?_, parse_usdc_amount_ten_pow_twenty⟩
  · intro d hd
    have heq : parse_usdc_amount d =
        Except.ok (castF64ToU64 (fl64 (d * (USDC_DECIMALS : ℚ)))) := by
      rw [parse_usdc_amount, if_pos hd]
    exact ⟨_, heq, castF64ToU64_le_u64Max _⟩
  · intro s l hl
    exact traverseExcept_ok_mem_of hl fun a b hab => parse_usdc_amounts_elem_ok_le hab

/-- C9, witness: the single-amount bound at `d = 3`. -/
theorem amounts_saturate_at_u64_max_witness :
    ∃ n, parse_usdc_amount 3 = Except.ok n ∧ n ≤ 2 ^ 64 - 1 :=
  amounts_saturate_at_u64_max.1 3 (by norm_num)

/-- C7, counterexample: the claim fails as stated — for the read-only
condition-id sub-command an external failure propagates verbatim, with no
operation-specific context label prepended (wrapping would prepend a
nonempty label and a separator, which strictly lengthens the message). -/
theorem dispatch_context_counterexample :
    execute (CtfCommand.ConditionId oracleAddrArg condHexArg 2)
        (extFailWith "network failure") =
      Except.error "network failure" ∧
    ∀ label : String, "network failure" ≠ label ++ ": " ++ "network failure" := by
  constructor
  · rfl
  · intro label heq
    have h1 : ("network failure" : String).length = 15 := rfl
    rw [heq, String.length_append, String.length_append] at h1
    have h2 : (": " : String).length = 2 := rfl
    have h3 : ("network failure" : String).length = 15 := rfl
    rw [h2, h3] at h1
    omega

/-- C7, amended: external-call failures of the four mutating sub-commands
are wrapped with their operation-specific context labels before
propagating, and no failure is retried or swallowed (successes relay
unchanged); the three read-only id-derivation sub-commands propagate
external failures verbatim, without an operation label; parse and
request-building failures also propagate verbatim with no operation
label — a non-positive amount, a bad partition CSV, a bad amounts CSV
and a malformed identifier each surface exactly the parse-stage error. -/
theorem dispatch_context_labels (msg : String) (t : TxResp) (n : ℕ) :
    execute (CtfCommand.Split condHexArg 10 usdcAddrArg none none)
        (extFailWith msg) =
      Except.error ("Split position failed" ++ ": " ++ msg) ∧
    execute (CtfCommand.Merge condHexArg 10 usdcAddrArg none none)
        (extFailWith msg) =
      Except.error ("Merge positions failed" ++ ": " ++ msg) ∧
    execute (CtfCommand.Redeem condHexArg usdcAddrArg none none)
        (extFailWith msg) =
      Except.error ("Redeem positions failed" ++ ": " ++ msg) ∧
    execute (CtfCommand.RedeemNegRisk condHexArg "10".data) (extFailWith msg) =
      Except.error ("Redeem neg-risk positions failed" ++ ": " ++ msg) ∧
    execute (CtfCommand.ConditionId oracleAddrArg condHexArg 2) (extFailWith msg) =
      Except.error msg ∧
    execute (CtfCommand.CollectionId condHexArg 1 none) (extFailWith msg) =
      Except.error msg ∧
    execute (CtfCommand.PositionId usdcAddrArg condHexArg) (extFailWith msg) =
      Except.error msg ∧
    execute (CtfCommand.Split condHexArg 10 usdcAddrArg none none)
        (extOkWith t n) =
      Except.ok (CtfOutput.txResult "split" t.transaction_hash t.block_number) ∧
    execute (CtfCommand.ConditionId oracleAddrArg condHexArg 2) (extOkWith t n) =
      Except.ok (CtfOutput.conditionIdOut n) ∧
    execute (CtfCommand.Split condHexArg (-5) usdcAddrArg none none)
        (extOkWith t n) =
      Except.error "Amount must be positive" ∧
    execute (CtfCommand.Split condHexArg 10 usdcAddrArg (some "abc".data) none)
        (extOkWith t n) =
      Except.error "Invalid value: abc" ∧
    execute (CtfCommand.RedeemNegRisk condHexArg "abc".data) (extOkWith t n) =
      Except.error "Invalid amount: abc" ∧
    execute (CtfCommand.ConditionId oracleAddrArg "garbage".data 2)
        (extOkWith t n) =
      Except.error ("invalid hex identifier: garbage") := by
  refine ⟨rfl, rfl, rfl, ?_, rfl, rfl, rfl, rfl, rfl, ?_, rfl, rfl, rfl⟩
  · simp only [execute]
    rw [parse_usdc_amounts_ten]
    rfl
  · simp only [execute]
    rw [show parse_usdc_amount (-5 : ℚ) = Except.error "Amount must be positive"
      from by rw [parse_usdc_amount, if_neg (by norm_num)]]
    rfl

/-- C8: the redeem-neg-risk sub-command, and only it, selects the
distinct neg-risk client configuration, keyed solely on which sub-command
was issued; split, merge and redeem construct the default configuration,
as probing `execute` with distinguishing client constructors confirms. -/
theorem negrisk_client_selection (c : CtfCommand) :
    (clientMode c = ClientMode.negRisk ↔
      ∃ condition amounts, c = CtfCommand.RedeemNegRisk condition amounts) ∧
    execute (CtfCommand.RedeemNegRisk condHexArg "10".data) extClientProbe =
      Except.error "neg-risk client" ∧
    execute (CtfCommand.Split condHexArg 10 usdcAddrArg none none) extClientProbe =
      Except.error "standard client" ∧
    execute (CtfCommand.Merge condHexArg 10 usdcAddrArg none none) extClientProbe =
      Except.error "standard client" ∧
    execute (CtfCommand.Redeem condHexArg usdcAddrArg none none) extClientProbe =
      Except.error "standard client" := by
  refine ⟨?_, ?_, rfl, rfl, rfl⟩
  · cases c <;> simp [clientMode]
  · simp only [execute]
    rw [parse_usdc_amounts_ten]
    rfl

end PolymarketCtf
